import Mathlib

/-!
# EddnRelay: a verification development of the filter/relay core

This file is a shallow embedding, in Lean 4, of the EddnRelay program
(`src/classes/filter.py`, `src/classes/relay.py`, `src/classes/mongo_handler.py`,
`src/classes/eddn_listener.py`) together with theorems checking the
natural-language specification against that embedding.

Conventions of the embedding:
* Decoded JSON documents are modelled by the inductive type `Json`
  (Python: values produced by `json.loads`, plus `datetime` objects that
  `MongoHandler.store_message` writes into stored records).
* Python numbers are modelled exactly: `int` by `Int`, `float` by `ℚ`
  (decimal literals are represented exactly; IEEE rounding is immaterial to
  the properties below and is not modelled).
* Fallible Python code is modelled with `Except PyErr`; an uncaught Python
  exception corresponds to an `Except.error`.
* `datetime` objects are modelled by a wall-clock value in microseconds plus
  an optional UTC offset (`none` = a naive datetime).
-/

namespace EddnRelay

/-- Python exception classes relevant to the embedded code. -/
inductive PyErr where
  | keyError
  | valueError
  | typeError
  | attributeError
  | reError
deriving DecidableEq, Repr

/-- A decoded JSON document (Python object produced by `json.loads`),
extended with the `date` constructor for `datetime` values that
`MongoHandler.store_message` writes into a record before inserting it.
Objects are association lists in insertion order, mirroring Python dicts. -/
inductive Json where
  | null
  | bool (b : Bool)
  | int (n : Int)
  | float (q : ℚ)
  | str (s : String)
  | date (wall : Int) (off : Option Int)
  | arr (l : List Json)
  | obj (l : List (String × Json))
deriving Repr

/-- Dictionary lookup (`d[k]` / `d.get(k)`) on the association list of an
object, first match wins (keys of decoded JSON objects are unique). -/
def jlookup : List (String × Json) → String → Option Json
  | [], _ => none
  | (k, v) :: rest, key => if k == key then some v else jlookup rest key

/-- `data.get(key)` on a `Json` value known to be an object; `none` when the
key is absent. -/
def jget (d : Json) (key : String) : Option Json :=
  match d with
  | .obj l => jlookup l key
  | _ => none

/-- Python dict assignment `d[k] = v`: replaces the value at an existing key
(keeping its position, as Python dicts do) or appends a new entry. -/
def objSet : List (String × Json) → String → Json → List (String × Json)
  | [], key, v => [(key, v)]
  | (k, w) :: rest, key, v =>
    if k == key then (k, v) :: rest else (k, w) :: objSet rest key v

/-- Python truthiness (`bool(x)`) of a decoded value: `None`, `False`, zero,
the empty string, the empty list and the empty dict are falsy. -/
def pyTruthy : Json → Bool
  | .null => false
  | .bool b => b
  | .int n => n != 0
  | .float q => q != 0
  | .str s => s != ""
  | .date _ _ => true
  | .arr l => !l.isEmpty
  | .obj l => !l.isEmpty

/-- Truthiness of `d.get(k, None)`: an absent key gives `None`, which is falsy. -/
def truthyOpt : Option Json → Bool
  | none => false
  | some v => pyTruthy v

/-- The numeric value of a Python number (`int`, `float`, or `bool`, since
`bool` is a subclass of `int`); `none` for non-numbers. -/
def numVal : Json → Option ℚ
  | .bool b => some (if b then 1 else 0)
  | .int n => some (n : ℚ)
  | .float q => some q
  | _ => none

mutual

/-- Python `==` on decoded values: numbers compare across `int`/`float`/`bool`
by numeric value; strings, `None` and `datetime`s compare by value; lists
compare elementwise; dicts compare as key-value sets (decoded JSON objects
have unique keys). Never raises. -/
def pyEq : Json → Json → Bool
  | .str a, .str b => a == b
  | .null, .null => true
  | .date w₁ o₁, .date w₂ o₂ =>
    match o₁, o₂ with
    | none, none => w₁ == w₂
    | some x, some y => (w₁ - x) == (w₂ - y)
    | _, _ => false
  | .arr a, .arr b => pyEqList a b
  | .obj a, .obj b => a.length == b.length && pyEqObj a (.obj b)
  | a, b =>
    match numVal a, numVal b with
    | some x, some y => x == y
    | _, _ => false

def pyEqList : List Json → List Json → Bool
  | [], [] => true
  | x :: xs, y :: ys => pyEq x y && pyEqList xs ys
  | _, _ => false

def pyEqObj : List (String × Json) → Json → Bool
  | [], _ => true
  | (k, v) :: rest, other =>
    (match jget other k with
     | some w => pyEq v w
     | none => false) && pyEqObj rest other

end

/-- One decimal digit. -/
def digitVal (c : Char) : Nat := c.toNat - 48

/-- Value of a list of decimal digit characters. -/
def digitsVal (cs : List Char) : Nat := cs.foldl (fun a c => a * 10 + digitVal c) 0

/-- Split off a maximal run of leading decimal digits. -/
def takeDigits (cs : List Char) : List Char × List Char :=
  match cs with
  | [] => ([], [])
  | c :: rest =>
    if c.isDigit then
      let (ds, r) := takeDigits rest
      (c :: ds, r)
    else ([], cs)

/-- Python `float(s)` on a string, as an exact rational: optional sign,
decimal digits with an optional fractional part and an optional decimal
exponent. (`inf`/`nan` and surrounding whitespace, which the program never
relies on, are not modelled and yield `none`.) -/
def pyFloatOfStr (s : String) : Option ℚ :=
  let cs := s.toList
  let (neg, cs) : Bool × List Char :=
    match cs with
    | '-' :: t => (true, t)
    | '+' :: t => (false, t)
    | _ => (false, cs)
  let (ip, rest) := takeDigits cs
  let core : Option (ℚ × List Char) :=
    match rest with
    | '.' :: rest2 =>
      let (fp, rest3) := takeDigits rest2
      if ip.isEmpty && fp.isEmpty then none
      else some ((digitsVal ip : ℚ) + (digitsVal fp : ℚ) / ((10 : ℚ) ^ fp.length), rest3)
    | _ =>
      if ip.isEmpty then none else some ((digitsVal ip : ℚ), rest)
  match core with
  | none => none
  | some (base, rest) =>
    let signed : ℚ := if neg then -base else base
    match rest with
    | [] => some signed
    | 'e' :: rest2 => pyFloatExp signed rest2
    | 'E' :: rest2 => pyFloatExp signed rest2
    | _ => none
where
  /-- The exponent part `e±ddd` of a float literal. -/
  pyFloatExp (base : ℚ) (cs : List Char) : Option ℚ :=
    let (eneg, cs) : Bool × List Char :=
      match cs with
      | '-' :: t => (true, t)
      | '+' :: t => (false, t)
      | _ => (false, cs)
    match takeDigits cs with
    | ([], _) => none
    | (ds, []) =>
      let e := digitsVal ds
      some (if eneg then base / (10 : ℚ) ^ e else base * (10 : ℚ) ^ e)
    | (_, _ :: _) => none

/-! ## Datetimes (`datetime.datetime`, `datetime.fromisoformat`) -/

/-- Days since 1970-01-01 of a proleptic Gregorian civil date
(Howard Hinnant's `days_from_civil`, the standard calendar algorithm). -/
def daysFromCivil (y m d : Int) : Int :=
  let y' := y - (if m ≤ 2 then 1 else 0)
  let era := Int.fdiv y' 400
  let yoe := y' - era * 400
  let doy := Int.fdiv (153 * (m + (if m > 2 then -3 else 9)) + 2) 5 + d - 1
  let doe := yoe * 365 + Int.fdiv yoe 4 - Int.fdiv yoe 100 + doy
  era * 146097 + doe - 719468

/-- Number of days in a month of the Gregorian calendar. -/
def daysInMonth (y m : Int) : Int :=
  if m == 2 then
    if y % 4 == 0 && (y % 100 != 0 || y % 400 == 0) then 29 else 28
  else if m == 4 || m == 6 || m == 9 || m == 11 then 30
  else 31

/-- Parse exactly `n` decimal digits, returning their value and the rest. -/
def parseDigitsAcc : Nat → Nat → List Char → Option (Nat × List Char)
  | 0, acc, cs => some (acc, cs)
  | n + 1, acc, c :: cs =>
    if c.isDigit then parseDigitsAcc n (acc * 10 + digitVal c) cs else none
  | _ + 1, _, [] => none

/-- A `datetime` value: wall-clock microseconds since the epoch as displayed,
plus an optional UTC offset in microseconds (`none` = naive datetime). -/
abbrev DtVal := Int × Option Int

/-- The optional fractional-seconds part `.d{1..6}` of an ISO timestamp,
in microseconds. -/
def parseFrac (cs : List Char) : Option (Nat × List Char) :=
  match cs with
  | '.' :: rest =>
    let (ds, r) := takeDigits rest
    if ds.isEmpty || ds.length > 6 then none
    else some (digitsVal ds * 10 ^ (6 - ds.length), r)
  | _ => some (0, cs)

/-- The optional timezone suffix (`+HH:MM`, `-HH:MM` or `Z`) of an ISO
timestamp: the UTC offset in microseconds, `none` for a naive timestamp. -/
def parseTzSuffix (cs : List Char) : Option (Option Int) :=
  match cs with
  | [] => some none
  | 'Z' :: [] => some (some 0)
  | c :: rest =>
    if c == '+' || c == '-' then
      match parseDigitsAcc 2 0 rest with
      | some (oh, ':' :: rest2) =>
        match parseDigitsAcc 2 0 rest2 with
        | some (om, []) =>
          if oh < 24 && om < 60 then
            let us : Int := (oh * 3600 + om * 60) * 1000000
            some (some (if c == '-' then -us else us))
          else none
        | _ => none
      | _ => none
    else none

/-- The time-of-day part `HH:MM[:SS[.ffffff]][offset]` of an ISO timestamp:
microseconds into the day plus the optional UTC offset. -/
def parseTimePart (cs : List Char) : Option (Int × Option Int) :=
  match parseDigitsAcc 2 0 cs with
  | some (h, ':' :: rest) =>
    match parseDigitsAcc 2 0 rest with
    | some (mi, rest2) =>
      let secPart : Option (Nat × List Char) :=
        match rest2 with
        | ':' :: rest3 =>
          match parseDigitsAcc 2 0 rest3 with
          | some (s, rest4) => if s < 60 then some (s, rest4) else none
          | none => none
        | _ => some (0, rest2)
      match secPart with
      | none => none
      | some (s, rest5) =>
        match parseFrac rest5 with
        | none => none
        | some (us, rest6) =>
          if h < 24 && mi < 60 then
            match parseTzSuffix rest6 with
            | none => none
            | some off =>
              some (((h * 3600 + mi * 60 + s) * 1000000 + us : Int), off)
          else none
    | _ => none
  | _ => none

/-- `datetime.fromisoformat`, on the subset of ISO-8601 the program
manipulates: `YYYY-MM-DD`, optionally followed by `T` or a space and
`HH:MM[:SS[.ffffff]]`, optionally followed by `+HH:MM`/`-HH:MM`/`Z`.
Returns the parsed `datetime` or `none` (Python: raises `ValueError`). -/
def fromisoformat (s : String) : Option DtVal :=
  match parseDigitsAcc 4 0 s.toList with
  | some (y, '-' :: r1) =>
    match parseDigitsAcc 2 0 r1 with
    | some (mo, '-' :: r2) =>
      match parseDigitsAcc 2 0 r2 with
      | some (d, rest) =>
        if 1 ≤ mo && mo ≤ 12 && 1 ≤ d && (d : Int) ≤ daysInMonth y mo then
          let dayUs : Int := daysFromCivil y mo d * 86400000000
          match rest with
          | [] => some (dayUs, none)
          | sep :: tcs =>
            if sep == 'T' || sep == ' ' then
              match parseTimePart tcs with
              | some (tus, off) => some (dayUs + tus, off)
              | none => none
            else none
        else none
      | _ => none
    | _ => none
  | _ => none

/-- `a >= b` on two `datetime`s: naive and aware values are incomparable
(Python raises `TypeError`); aware values compare by absolute instant. -/
def dtGeE (a b : DtVal) : Except PyErr Bool :=
  match a, b with
  | (w₁, none), (w₂, none) => .ok (decide (w₂ ≤ w₁))
  | (w₁, some o₁), (w₂, some o₂) => .ok (decide (w₂ - o₂ ≤ w₁ - o₁))
  | _, _ => .error .typeError

/-- `a <= b` on two `datetime`s; see `dtGeE`. -/
def dtLeE (a b : DtVal) : Except PyErr Bool :=
  match a, b with
  | (w₁, none), (w₂, none) => .ok (decide (w₁ ≤ w₂))
  | (w₁, some o₁), (w₂, some o₂) => .ok (decide (w₁ - o₁ ≤ w₂ - o₂))
  | _, _ => .error .typeError

/-! ## Regular expressions (`re.compile`, `pattern.match`)

A compiled pattern is modelled as a regular-expression syntax tree; matching
is by Brzozowski derivatives, with its correctness against the textbook
matching relation `RMatch` proved below. -/

/-- One item of a character class `[...]`: a literal or a range. -/
inductive ClassItem where
  | single (c : Char)
  | span (lo hi : Char)
deriving DecidableEq, Repr

/-- A compiled regular expression. `fail` matches nothing (it arises only
as a derivative); `dot` is `.` (any character except a newline); `cls` is a
possibly negated character class. -/
inductive Regex where
  | fail
  | epsilon
  | char (c : Char)
  | dot
  | cls (neg : Bool) (items : List ClassItem)
  | cat (a b : Regex)
  | alt (a b : Regex)
  | star (a : Regex)
deriving DecidableEq, Repr

/-- Whether a character class matches a character. -/
def classMatch (neg : Bool) (items : List ClassItem) (c : Char) : Bool :=
  let m := items.any fun it =>
    match it with
    | .single a => a == c
    | .span lo hi => decide (lo ≤ c) && decide (c ≤ hi)
  if neg then !m else m

/-- Whether a regex accepts the empty string. -/
def nullable : Regex → Bool
  | .fail => false
  | .epsilon => true
  | .char _ => false
  | .dot => false
  | .cls _ _ => false
  | .cat a b => nullable a && nullable b
  | .alt a b => nullable a || nullable b
  | .star _ => true

/-- Brzozowski derivative of a regex with respect to a character. -/
def derivC : Regex → Char → Regex
  | .fail, _ => .fail
  | .epsilon, _ => .fail
  | .char a, c => if a == c then .epsilon else .fail
  | .dot, c => if c == '\n' then .fail else .epsilon
  | .cls n its, c => if classMatch n its c then .epsilon else .fail
  | .cat a b, c =>
    if nullable a then .alt (.cat (derivC a c) b) (derivC b c)
    else .cat (derivC a c) b
  | .alt a b, c => .alt (derivC a c) (derivC b c)
  | .star a, c => .cat (derivC a c) (.star a)

/-- Whether a regex accepts exactly the given character list. -/
def accepts : Regex → List Char → Bool
  | r, [] => nullable r
  | r, c :: cs => accepts (derivC r c) cs

/-- All initial segments of a list, shortest first. -/
def listInits : List Char → List (List Char)
  | [] => [[]]
  | c :: cs => [] :: (listInits cs).map (c :: ·)

/-- Truthiness of Python's `compiled.match(s)`: true iff the pattern matches
at the start of `s`, i.e. accepts some initial segment of `s` (not
full-string anchored). -/
def reMatch (r : Regex) (s : String) : Bool :=
  (listInits s.toList).any (accepts r)

/-- The textbook matching relation of regular expressions: `RMatch r s`
holds iff `s` is in the language of `r`. -/
inductive RMatch : Regex → List Char → Prop where
  | epsilon : RMatch .epsilon []
  | char (c : Char) : RMatch (.char c) [c]
  | dot {c : Char} : c ≠ '\n' → RMatch .dot [c]
  | cls {neg items c} : classMatch neg items c = true → RMatch (.cls neg items) [c]
  | cat {a b s t} : RMatch a s → RMatch b t → RMatch (.cat a b) (s ++ t)
  | altL {a b s} : RMatch a s → RMatch (.alt a b) s
  | altR {a b s} : RMatch b s → RMatch (.alt a b) s
  | starNil (a : Regex) : RMatch (.star a) []
  | starCat {a s t} : RMatch a s → RMatch (.star a) t → RMatch (.star a) (s ++ t)

/-! ## Pattern compilation (`re.compile`)

`reCompile` parses the concrete pattern syntax the program accepts into a
`Regex`, on the subset of Python `re` syntax relevant here: literals, `.`,
`*`, `+`, `?`, `|`, groups `( )`, character classes `[ ]` with ranges and
`^`-negation, and backslash-escaped punctuation.  Constructs outside the
subset (anchors, `\d`-style escapes, `{m,n}` repeats) are reported as
errors.  Invalid patterns error exactly as Python does on this subset; in
particular an unterminated character set such as `"["` is a compile error
(Python: `re.error`). -/

/-- Parse the items of a character class after `[` (and after a possible
leading `^`); `first` is true at the first position, where `]` is literal. -/
def parseClassItems : List Char → Bool → List ClassItem → Except String (List ClassItem × List Char)
  | [], _, _ => .error "unterminated character set"
  | ']' :: rest, first, acc =>
    if first then parseClassItems rest false (.single ']' :: acc)
    else .ok (acc.reverse, rest)
  | '\\' :: c :: rest, _, acc =>
    if c.isAlphanum then .error "unsupported escape in character set"
    else parseClassItems rest false (.single c :: acc)
  | ['\\'], _, _ => .error "bad escape (end of pattern)"
  | c :: '-' :: ']' :: rest, _, acc => .ok ((ClassItem.single '-' :: ClassItem.single c :: acc).reverse, rest)
  | c :: '-' :: d :: rest, _, acc =>
    if c ≤ d then parseClassItems rest false (.span c d :: acc)
    else .error "bad character range"
  | c :: rest, _, acc => parseClassItems rest false (.single c :: acc)

/-- Apply a postfix quantifier (`*`, `+`, `?`) to a parsed atom, rejecting a
stacked quantifier (`a**`) as Python does. -/
def applyQuant (a : Regex) (cs : List Char) : Except String (Regex × List Char) :=
  let isQ : Char → Bool := fun c => c == '*' || c == '+' || c == '?'
  match cs with
  | q :: rest =>
    if isQ q then
      match rest with
      | q' :: _ =>
        if isQ q' then .error "multiple repeat"
        else .ok (quantified a q, rest)
      | [] => .ok (quantified a q, rest)
    else .ok (a, cs)
  | [] => .ok (a, cs)
where
  /-- The regex denoted by `a` followed by one quantifier character. -/
  quantified (a : Regex) (q : Char) : Regex :=
    if q == '*' then .star a
    else if q == '+' then .cat a (.star a)
    else .alt a .epsilon

mutual

/-- Parse a pattern at alternation level (`a|b|c`). -/
def parseAlt : Nat → List Char → Except String (Regex × List Char)
  | 0, _ => .error "out of fuel"
  | fuel + 1, cs => do
    let (a, rest) ← parseSeq fuel cs
    match rest with
    | '|' :: rest2 => do
      let (b, rest3) ← parseAlt fuel rest2
      .ok (.alt a b, rest3)
    | _ => .ok (a, rest)

/-- Parse a pattern at concatenation level: a sequence of quantified atoms. -/
def parseSeq : Nat → List Char → Except String (Regex × List Char)
  | 0, _ => .error "out of fuel"
  | fuel + 1, cs =>
    match cs with
    | [] => .ok (.epsilon, [])
    | '|' :: _ => .ok (.epsilon, cs)
    | ')' :: _ => .ok (.epsilon, cs)
    | '*' :: _ => .error "nothing to repeat"
    | '+' :: _ => .error "nothing to repeat"
    | '?' :: _ => .error "nothing to repeat"
    | _ => do
      let (a, rest) ← parseAtom fuel cs
      let (a', rest2) ← applyQuant a rest
      let (b, rest3) ← parseSeq fuel rest2
      .ok (.cat a' b, rest3)

/-- Parse one atom: a group, a character class, `.`, an escape or a literal. -/
def parseAtom : Nat → List Char → Except String (Regex × List Char)
  | 0, _ => .error "out of fuel"
  | fuel + 1, cs =>
    match cs with
    | [] => .error "missing atom"
    | '(' :: rest => do
      let (r, rest2) ← parseAlt fuel rest
      match rest2 with
      | ')' :: rest3 => .ok (r, rest3)
      | _ => .error "missing ), unterminated subpattern"
    | '[' :: rest =>
      let (neg, rest2) : Bool × List Char :=
        match rest with
        | '^' :: t => (true, t)
        | _ => (false, rest)
      match parseClassItems rest2 true [] with
      | .ok (items, rest3) => .ok (.cls neg items, rest3)
      | .error e => .error e
    | '.' :: rest => .ok (.dot, rest)
    | '\\' :: c :: rest =>
      if c.isAlphanum then .error "unsupported escape in model"
      else .ok (.char c, rest)
    | ['\\'] => .error "bad escape (end of pattern)"
    | '^' :: _ => .error "anchors are outside the modelled subset"
    | '$' :: _ => .error "anchors are outside the modelled subset"
    | c :: rest => .ok (.char c, rest)

end

/-- `re.compile(pattern)`: parse a pattern string to a `Regex`, or report a
compile error (Python: raise `re.error`). -/
def reCompile (pattern : String) : Except String Regex :=
  match parseAlt (4 * pattern.length + 16) pattern.toList with
  | .ok (r, []) => .ok r
  | .ok (_, _ :: _) => .error "unbalanced parenthesis"
  | .error e => .error e

/-! ## Python string coercion (`str(x)`) -/

/-- Decimal digits of the fractional part `rem/den`, at most `fuel` digits. -/
def fracDigits : Nat → Nat → Nat → List Char
  | 0, _, _ => []
  | fuel + 1, rem, den =>
    if rem == 0 || den == 0 then []
    else Char.ofNat (48 + rem * 10 / den) :: fracDigits fuel (rem * 10 % den) den

/-- Representation of a Python float in our exact-rational model: integer
part, `.`, then the (for our decimal-literal values, finite) fraction
digits; integers print with a trailing `.0` as Python floats do. -/
def qRepr (q : ℚ) : String :=
  let sign := if q < 0 then "-" else ""
  let num := q.num.natAbs
  let den := q.den
  let ip := num / den
  let ds := fracDigits 17 (num % den) den
  sign ++ toString ip ++ "." ++ (if ds.isEmpty then "0" else String.mk ds)

/-- Left-pad the decimal form of a natural number with zeros. -/
def padNum (w : Nat) (n : Nat) : String :=
  let s := toString n
  String.mk (List.replicate (w - s.length) '0') ++ s

/-- Civil date (year, month, day) of a count of days since 1970-01-01
(inverse of `daysFromCivil`, Hinnant's `civil_from_days`). -/
def civilFromDays (z₀ : Int) : Int × Int × Int :=
  let z := z₀ + 719468
  let era := Int.fdiv z 146097
  let doe := z - era * 146097
  let yoe := Int.fdiv (doe - Int.fdiv doe 1460 + Int.fdiv doe 36524 - Int.fdiv doe 146096) 365
  let y := yoe + era * 400
  let doy := doe - (365 * yoe + Int.fdiv yoe 4 - Int.fdiv yoe 100)
  let mp := Int.fdiv (5 * doy + 2) 153
  let d := doy - Int.fdiv (153 * mp + 2) 5 + 1
  let m := mp + (if mp < 10 then 3 else -9)
  (y + (if m ≤ 2 then 1 else 0), m, d)

/-- `str(datetime)`: `YYYY-MM-DD HH:MM:SS[.ffffff][+HH:MM]`. -/
def dateRepr (wall : Int) (off : Option Int) : String :=
  let day := Int.fdiv wall 86400000000
  let tus := (wall - day * 86400000000).toNat
  let (y, m, d) := civilFromDays day
  let base := padNum 4 y.toNat ++ "-" ++ padNum 2 m.toNat ++ "-" ++ padNum 2 d.toNat
    ++ " " ++ padNum 2 (tus / 3600000000) ++ ":" ++ padNum 2 (tus / 60000000 % 60)
    ++ ":" ++ padNum 2 (tus / 1000000 % 60)
  let withUs := if tus % 1000000 == 0 then base else base ++ "." ++ padNum 6 (tus % 1000000)
  match off with
  | none => withUs
  | some o =>
    let sgn := if o < 0 then "-" else "+"
    let oa := o.natAbs
    withUs ++ sgn ++ padNum 2 (oa / 3600000000) ++ ":" ++ padNum 2 (oa / 60000000 % 60)

mutual

/-- Python `str(x)` of a decoded value: strings unchanged; other values by
their canonical representation (container elements print as `repr`, which
quotes strings — handled inline in `pyReprList`/`pyReprObj`). -/
def pyStr : Json → String
  | .str s => s
  | .null => "None"
  | .bool b => if b then "True" else "False"
  | .int n => toString n
  | .float q => qRepr q
  | .date w o => dateRepr w o
  | .arr l => "[" ++ pyReprList l ++ "]"
  | .obj l => "\x7b" ++ pyReprObj l ++ "\x7d"

def pyReprList : List Json → String
  | [] => ""
  | [.str s] => "\x27" ++ s ++ "\x27"
  | [x] => pyStr x
  | .str s :: rest => "\x27" ++ s ++ "\x27" ++ ", " ++ pyReprList rest
  | x :: rest => pyStr x ++ ", " ++ pyReprList rest

def pyReprObj : List (String × Json) → String
  | [] => ""
  | [(k, .str s)] => "\x27" ++ k ++ "\x27: \x27" ++ s ++ "\x27"
  | [(k, v)] => "\x27" ++ k ++ "\x27: " ++ pyStr v
  | (k, .str s) :: rest => "\x27" ++ k ++ "\x27: \x27" ++ s ++ "\x27" ++ ", " ++ pyReprObj rest
  | (k, v) :: rest => "\x27" ++ k ++ "\x27: " ++ pyStr v ++ ", " ++ pyReprObj rest

end

/-! ## The predicate model (`filter.py`)

Every leaf condition class in `filter.py` has a `check_value` method with the
same traversal skeleton (walk the path; on a list, branch existentially over
the elements with the remaining path; on a missing key or non-dict, return
`False`), differing only in the terminal test applied once the path is
exhausted.  `checkValueWith` embeds that shared skeleton, parameterised by
the terminal test; a terminal may raise (`Except.error`), and Python's
`any(...)` propagates an element's exception, which the traversal mirrors. -/

mutual

/-- The `check_value` traversal of `filter.py`, with terminal test `term`. -/
def checkValueWith (term : Json → Except PyErr Bool) : Json → List String → Except PyErr Bool
  | d, [] => term d
  | .arr l, k :: ks => checkValueAnyElem term l (k :: ks)
  | .obj m, k :: ks => checkValueKey term m k ks
  | _, _ :: _ => .ok false

/-- `any(self.check_value(item, remaining_path) for item in current)`:
short-circuits on the first `True` and propagates the first exception. -/
def checkValueAnyElem (term : Json → Except PyErr Bool) : List Json → List String → Except PyErr Bool
  | [], _ => .ok false
  | d :: ds, p =>
    match checkValueWith term d p with
    | .error e => .error e
    | .ok true => .ok true
    | .ok false => checkValueAnyElem term ds p

/-- `key in current` / `current[key]` on a dict, continuing the traversal. -/
def checkValueKey (term : Json → Except PyErr Bool) : List (String × Json) → String → List String → Except PyErr Bool
  | [], _, _ => .ok false
  | (k', v) :: rest, k, ks =>
    if k' == k then checkValueWith term v ks else checkValueKey term rest k ks

end

/-- Terminal test of `ExistsCondition.check_value`: `current is not None`. -/
def existsTerm (d : Json) : Except PyErr Bool :=
  match d with
  | .null => .ok false
  | _ => .ok true

/-- Terminal test of `ExactCondition.check_value`: `current == self.value`. -/
def exactTerm (value : Json) (d : Json) : Except PyErr Bool :=
  .ok (pyEq d value)

/-- Terminal test of `RegexCondition.check_value`:
`bool(self.regex.match(str(current)))`. -/
def regexTerm (r : Regex) (d : Json) : Except PyErr Bool :=
  .ok (reMatch r (pyStr d))

/-- Terminal test of `RangeCondition.check_value`: non-`int`/`float`/`str`
values and unparseable strings give `False` (the `float()` conversion is
inside `try`), then the inclusive bound checks. -/
def rangeTerm (minv maxv : Option ℚ) (d : Json) : Except PyErr Bool :=
  let q? : Option ℚ :=
    match d with
    | .bool b => some (if b then 1 else 0)
    | .int n => some (n : ℚ)
    | .float q => some q
    | .str s => pyFloatOfStr s
    | _ => none
  match q? with
  | none => .ok false
  | some q =>
    .ok ((match minv with
          | some m => decide (m ≤ q)
          | none => true)
      && (match maxv with
          | some m => decide (q ≤ m)
          | none => true))

/-- Terminal test of `DateRangeCondition.check_value`: the
`datetime.fromisoformat(str(current))` parse is inside `try` (failure gives
`False`), but the two bound comparisons are outside it, so comparing a naive
with an aware datetime raises `TypeError`. -/
def daterangeTerm (minv maxv : Option DtVal) (d : Json) : Except PyErr Bool :=
  match fromisoformat (pyStr d) with
  | none => .ok false
  | some t => do
    let minCheck ← match minv with
      | some m => dtGeE t m
      | none => pure true
    let maxCheck ← match maxv with
      | some m => dtLeE t m
      | none => pure true
    pure (minCheck && maxCheck)

/-- The predicate tree of `filter.py`: one constructor per condition class.
`regexC` carries both the source pattern (Python: `self.regex.pattern`) and
the compiled regex (Python: `self.regex`). -/
inductive Condition where
  | existsC (path : List String)
  | exact (path : List String) (value : Json)
  | regexC (path : List String) (pattern : String) (r : Regex)
  | range (path : List String) (minv maxv : Option ℚ)
  | daterange (path : List String) (minv maxv : Option DtVal)
  | all (cs : List Condition)
  | anyC (cs : List Condition)
  | notC (cs : List Condition)

mutual

/-- The `matches` method of each condition class.  `All` is Python
`all(...)`, `Any` is `any(...)`, `Not` is `not any(...)`; generator
evaluation short-circuits and propagates exceptions. -/
def matchesE : Condition → Json → Except PyErr Bool
  | .existsC p, d => checkValueWith existsTerm d p
  | .exact p v, d => checkValueWith (exactTerm v) d p
  | .regexC p _ r, d => checkValueWith (regexTerm r) d p
  | .range p lo hi, d => checkValueWith (rangeTerm lo hi) d p
  | .daterange p lo hi, d => checkValueWith (daterangeTerm lo hi) d p
  | .all cs, d => allMatchesE cs d
  | .anyC cs, d => anyMatchesE cs d
  | .notC cs, d =>
    match anyMatchesE cs d with
    | .error e => .error e
    | .ok b => .ok (!b)

def allMatchesE : List Condition → Json → Except PyErr Bool
  | [], _ => .ok true
  | c :: rest, d =>
    match matchesE c d with
    | .error e => .error e
    | .ok false => .ok false
    | .ok true => allMatchesE rest d

def anyMatchesE : List Condition → Json → Except PyErr Bool
  | [], _ => .ok false
  | c :: rest, d =>
    match matchesE c d with
    | .error e => .error e
    | .ok true => .ok true
    | .ok false => anyMatchesE rest d

end

/-! ## Specification-level path resolution (spec §4.1)

`resolve` is the resolution relation the specification describes: the list
of values a path resolves to, branching existentially (with the remaining
path preserved) at each sequence.  It is written from the specification's
words, to be compared with the traversal the code implements. -/

mutual

/-- All values the path resolves to in a document, per spec §4.1. -/
def resolve : Json → List String → List Json
  | d, [] => [d]
  | .arr l, k :: ks => resolveList l (k :: ks)
  | .obj m, k :: ks => resolveObj m k ks
  | _, _ :: _ => []

def resolveList : List Json → List String → List Json
  | [], _ => []
  | d :: ds, p => resolve d p ++ resolveList ds p

def resolveObj : List (String × Json) → String → List String → List Json
  | [], _, _ => []
  | (k', v) :: rest, k, ks => if k' == k then resolve v ks else resolveObj rest k ks

end

/-! ## Construction from a declarative description -/

/-- Python `s.split('.')`: split at every dot; the empty string gives
`[""]`. -/
def splitDot (s : String) : List String :=
  go s.toList []
where
  go : List Char → List Char → List String
    | [], acc => [String.mk acc.reverse]
    | c :: cs, acc =>
      if c == '.' then String.mk acc.reverse :: go cs []
      else go cs (c :: acc)

/-- `condition_data['path'].split('.')`: requires the `path` field to be
present (else `KeyError`) and a string (else `.split` raises
`AttributeError`). -/
def getPath (fields : List (String × Json)) : Except PyErr (List String) :=
  match jlookup fields "path" with
  | none => .error .keyError
  | some (.str p) => .ok (splitDot p)
  | some _ => .error .attributeError

/-- `RangeCondition.__init__` bound handling: the constructor accepts only
`float`, `str` or `None` bounds (note: **not** `int`), raising `ValueError`
otherwise, then applies `float()` to a present bound (a non-numeric string
raises `ValueError`). -/
def rangeBound : Option Json → Except PyErr (Option ℚ)
  | none => .ok none
  | some (.float q) => .ok (some q)
  | some (.str s) =>
    match pyFloatOfStr s with
    | some q => .ok (some q)
    | none => .error .valueError
  | some _ => .error .valueError

/-- `DateRangeCondition.__init__` bound handling: bounds must be `str` or
`None` (else `ValueError`); a present bound is parsed with
`datetime.fromisoformat(min_value) if min_value else None`, so an *empty*
string is a missing bound and an unparseable string raises `ValueError`. -/
def dateRangeBound : Option Json → Except PyErr (Option DtVal)
  | none => .ok none
  | some (.str s) =>
    if s == "" then .ok none
    else
      match fromisoformat s with
      | some t => .ok (some t)
      | none => .error .valueError
  | some _ => .error .valueError

/-- `RegexCondition.__init__`: `re.compile(pattern)`, re-raising `re.error`
on an invalid pattern; the pattern must be a string (else `TypeError`). -/
def regexInit (path : List String) (pat : Json) : Except PyErr Condition :=
  match pat with
  | .str s =>
    match reCompile s with
    | .ok r => .ok (.regexC path s r)
    | .error _ => .error .reError
  | _ => .error .typeError

mutual

/-- `Filter._parse_condition_from_json`: builds a condition from a decoded
description.  An unknown `type` (or a non-string one, which compares unequal
to every tag) raises `ValueError`; missing required fields raise `KeyError`;
indexing a non-dict description raises `TypeError`. -/
def parseConditionFromJson : Json → Except PyErr Condition
  | .obj fields =>
    (match jlookup fields "type" with
     | none => .error .keyError
     | some (.str "exists") =>
       match getPath fields with
       | .error e => .error e
       | .ok p => .ok (.existsC p)
     | some (.str "exact") =>
       (match getPath fields with
        | .error e => .error e
        | .ok p =>
          match jlookup fields "value" with
          | none => .error .keyError
          | some v => .ok (.exact p v))
     | some (.str "regex") =>
       (match getPath fields with
        | .error e => .error e
        | .ok p =>
          match jlookup fields "pattern" with
          | none => .error .keyError
          | some v => regexInit p v)
     | some (.str "range") =>
       (match getPath fields with
        | .error e => .error e
        | .ok p =>
          match rangeBound (jlookup fields "min_value"), rangeBound (jlookup fields "max_value") with
          | .error e, _ => .error e
          | .ok _, .error e => .error e
          | .ok lo, .ok hi => .ok (.range p lo hi))
     | some (.str "daterange") =>
       (match getPath fields with
        | .error e => .error e
        | .ok p =>
          match dateRangeBound (jlookup fields "min_value"), dateRangeBound (jlookup fields "max_value") with
          | .error e, _ => .error e
          | .ok _, .error e => .error e
          | .ok lo, .ok hi => .ok (.daterange p lo hi))
     | some (.str "all") =>
       (match parseCondsAt fields "conditions" with
        | .error e => .error e
        | .ok cs => .ok (.all cs))
     | some (.str "any") =>
       (match parseCondsAt fields "conditions" with
        | .error e => .error e
        | .ok cs => .ok (.anyC cs))
     | some (.str "not") =>
       (match parseCondsAt fields "conditions" with
        | .error e => .error e
        | .ok cs => .ok (.notC cs))
     | some _ => .error .valueError)
  | _ => .error .typeError

/-- `condition_data['conditions']` followed by parsing each element:
`KeyError` when absent, `TypeError` when not a list. -/
def parseCondsAt : List (String × Json) → String → Except PyErr (List Condition)
  | [], _ => .error .keyError
  | (k', v) :: rest, k =>
    if k' == k then
      match v with
      | .arr l => parseCondList l
      | _ => .error .typeError
    else parseCondsAt rest k

/-- `[self._parse_condition_from_json(c) for c in conditions]`: left-to-right,
propagating the first exception. -/
def parseCondList : List Json → Except PyErr (List Condition)
  | [] => .ok []
  | x :: xs =>
    match parseConditionFromJson x with
    | .error e => .error e
    | .ok c =>
      match parseCondList xs with
      | .error e => .error e
      | .ok cs => .ok (c :: cs)

end

/-- The `Filter` class of `filter.py`: its `root_condition` (initially
`AllCondition([])`).  The auxiliary display attribute `pattern` built by
`_build_pattern` is never read on any behaviour modelled here and is
omitted. -/
structure Filter where
  root_condition : Condition

/-- `Filter()`: a fresh filter matches everything. -/
def Filter.default : Filter := ⟨.all []⟩

/-- `Filter.matches`: evaluate the root condition. -/
def Filter.matches (f : Filter) (d : Json) : Except PyErr Bool :=
  matchesE f.root_condition d

/-- `Filter.set_filter_from_json`: parse and install a root condition;
construction errors propagate to the caller. -/
def setFilterFromJson (f : Filter) (conditionData : Json) : Except PyErr Filter :=
  match parseConditionFromJson conditionData with
  | .error e => .error e
  | .ok c => .ok { f with root_condition := c }

/-! ## Translation to a backend query (`to_mongo_query`) -/

/-- A bound value in a backend range fragment: a number or a datetime. -/
inductive MBound where
  | num (q : ℚ)
  | date (t : DtVal)

/-- A per-field backend comparison fragment. -/
inductive MCmp where
  | mexists
  | meq (v : Json)
  | mregex (pat : String)
  | mrange (lo hi : Option MBound)

/-- A backend (MongoDB) query value as produced by `to_mongo_query`:
`mempty` is the empty query `{}`. -/
inductive MQuery where
  | mempty
  | mfield (path : String) (c : MCmp)
  | mand (qs : List MQuery)
  | mor (qs : List MQuery)
  | mnor (qs : List MQuery)

/-- `'.'.join(self.path)`. -/
def joinDot : List String → String
  | [] => ""
  | [s] => s
  | s :: rest => s ++ "." ++ joinDot rest

mutual

/-- The `to_mongo_query` method of each condition class. -/
def toMongoQuery : Condition → MQuery
  | .existsC p => .mfield (joinDot p) .mexists
  | .exact p v => .mfield (joinDot p) (.meq v)
  | .regexC p pat _ => .mfield (joinDot p) (.mregex pat)
  | .range p lo hi =>
    (match lo, hi with
     | none, none => .mempty
     | _, _ => .mfield (joinDot p) (.mrange (lo.map .num) (hi.map .num)))
  | .daterange p lo hi =>
    (match lo, hi with
     | none, none => .mempty
     | _, _ => .mfield (joinDot p) (.mrange (lo.map .date) (hi.map .date)))
  | .all cs =>
    (match cs with
     | [] => .mempty
     | _ => .mand (toMongoQueryList cs))
  | .anyC cs =>
    (match cs with
     | [] => .mempty
     | _ => .mor (toMongoQueryList cs))
  | .notC cs =>
    (match cs with
     | [] => .mempty
     | _ => .mnor (toMongoQueryList cs))

def toMongoQueryList : List Condition → List MQuery
  | [] => []
  | c :: rest => toMongoQuery c :: toMongoQueryList rest

end

/-- `Filter.to_mongo_query`: delegate to the root condition. -/
def filterToMongoQuery (f : Filter) : MQuery := toMongoQuery f.root_condition

/-! ## The relay (`relay.py`) -/

mutual

/-- `Relay._parse_condition`: the relay's own description parser supports
only the `exact`, `regex`, `all` and `any` tags; every other tag (including
`exists`, `range`, `daterange`, `not`) raises `ValueError`. -/
def relayParseCondition : Json → Except PyErr Condition
  | .obj fields =>
    (match jlookup fields "type" with
     | none => .error .keyError
     | some (.str "exact") =>
       (match getPath fields with
        | .error e => .error e
        | .ok p =>
          match jlookup fields "value" with
          | none => .error .keyError
          | some v => .ok (.exact p v))
     | some (.str "regex") =>
       (match getPath fields with
        | .error e => .error e
        | .ok p =>
          match jlookup fields "pattern" with
          | none => .error .keyError
          | some v => regexInit p v)
     | some (.str "all") =>
       (match relayParseCondsAt fields "conditions" with
        | .error e => .error e
        | .ok cs => .ok (.all cs))
     | some (.str "any") =>
       (match relayParseCondsAt fields "conditions" with
        | .error e => .error e
        | .ok cs => .ok (.anyC cs))
     | some _ => .error .valueError)
  | _ => .error .typeError

def relayParseCondsAt : List (String × Json) → String → Except PyErr (List Condition)
  | [], _ => .error .keyError
  | (k', v) :: rest, k =>
    if k' == k then
      match v with
      | .arr l => relayParseCondList l
      | _ => .error .typeError
    else relayParseCondsAt rest k

def relayParseCondList : List Json → Except PyErr (List Condition)
  | [] => .ok []
  | x :: xs =>
    match relayParseCondition x with
    | .error e => .error e
    | .ok c =>
      match relayParseCondList xs with
      | .error e => .error e
      | .ok cs => .ok (c :: cs)

end

/-- The subscriber registry `Relay.clients`: channels (identified here by a
numeric id) with their current filters, in insertion order. -/
abbrev Registry := List (Nat × Filter)

/-- Registering a new channel: `self.clients[websocket] = Filter()`. -/
def registerClient (clients : Registry) (cid : Nat) : Registry :=
  clients ++ [(cid, Filter.default)]

/-- `del self.clients[websocket]`. -/
def eraseClient (clients : Registry) (cid : Nat) : Registry :=
  clients.filter (fun e => e.1 != cid)

/-- Outcome of handling one inbound subscriber message in
`Relay.register_client`. -/
inductive MsgOutcome where
  | handled
    -- the iteration completed and the receive loop continues
  | removed
    -- a caught exception (`json.JSONDecodeError`, `KeyError`, `ValueError`):
    -- the subscriber is deleted from the registry
  | crashed (e : PyErr)
    -- an uncaught exception propagates out of `register_client`; the
    -- channel is torn down by the transport but the registry is unchanged
deriving DecidableEq, Repr

/-- One iteration of the `async for` receive loop in `Relay.register_client`
on an already-decoded message `data`, together with its `except` clauses.

On `data['type'] == 'filter'` the handler parses `data['filter']` with
`Relay._parse_condition` and then calls `new_filter.set_condition(condition)`.
The `Filter` class defines no method `set_condition`, so in CPython this
call raises `AttributeError`; `AttributeError` (and `re.error` from an
invalid regex pattern, and `TypeError`) is not among the caught exception
classes `(json.JSONDecodeError, KeyError, ValueError)`, so it propagates:
the subscriber's predicate is never replaced and its registry entry is not
deleted. -/
def handleClientMessage (clients : Registry) (cid : Nat) (data : Json) :
    Registry × MsgOutcome :=
  match data with
  | .obj fields =>
    (match jlookup fields "type" with
     | none => (eraseClient clients cid, .removed)
     | some (.str "filter") =>
       (match jlookup fields "filter" with
        | none => (eraseClient clients cid, .removed)
        | some fd =>
          match relayParseCondition fd with
          | .ok _ => (clients, .crashed .attributeError)
          | .error .keyError => (eraseClient clients cid, .removed)
          | .error .valueError => (eraseClient clients cid, .removed)
          | .error e => (clients, .crashed e))
     | some _ => (clients, .handled))
  | _ => (clients, .crashed .typeError)

/-- `Relay.process_message`: evaluate every subscriber's filter against the
event and send the serialized event to each matching subscriber (a
`ConnectionClosed` on send is swallowed, so the result is the list of
subscribers a send is attempted to).  An exception from a filter's
`matches` is not caught and propagates. -/
def processMessage (clients : Registry) (msg : Json) : Except PyErr (List Nat) :=
  match clients with
  | [] => .ok []
  | (cid, f) :: rest =>
    match Filter.matches f msg with
    | .error e => .error e
    | .ok true =>
      (match processMessage rest msg with
       | .error e => .error e
       | .ok tl => .ok (cid :: tl))
    | .ok false => processMessage rest msg

/-! ## The retention store (`mongo_handler.py`) -/

/-- `MongoHandler.store_message`: derive the ingestion timestamp from
`message['message']['timestamp']` if that is present and truthy, else from
`message['header']['gatewayTimestamp']`; raise `ValueError` when neither is
present/truthy; parse it with `fromisoformat` (`ValueError` on a bad
string, `TypeError` on a non-string); interpret a naive result as UTC; then
write it into the event's top-level `timestamp` key and insert that same
mutated object.  Returns the inserted record; any error means nothing is
inserted. -/
def storeMessage (message : Json) : Except PyErr Json :=
  match message with
  | .obj fields =>
    let msgVal := (jlookup fields "message").getD (.obj [])
    (match msgVal with
     | .obj m =>
       let ts₁ := jlookup m "timestamp"
       let tsOpt : Except PyErr (Option Json) :=
         if truthyOpt ts₁ then .ok ts₁
         else
           match (jlookup fields "header").getD (.obj []) with
           | .obj h => .ok (jlookup h "gatewayTimestamp")
           | _ => .error .attributeError
       (match tsOpt with
        | .error e => .error e
        | .ok tsv =>
          if truthyOpt tsv then
            match tsv with
            | some (.str s) =>
              (match fromisoformat s with
               | none => .error .valueError
               | some (w, off) =>
                 let norm : DtVal := match off with
                   | none => (w, some 0)
                   | some o => (w, some o)
                 .ok (.obj (objSet fields "timestamp" (.date norm.1 norm.2))))
            | _ => .error .typeError
          else .error .valueError)
     | _ => .error .attributeError)
  | _ => .error .attributeError

/-! ## The ingestor (`eddn_listener.py`) -/

/-- The result of one upstream receive + decompress + decode, as seen by the
body of the ingestion loop. -/
inductive FrameResult where
  | frame (j : Json)
    -- a frame that decompressed and decoded successfully
  | emptyFrame
    -- `if not message: continue`
  | protoErr
    -- `zmq.ZMQError`, `zlib.error` or `json.JSONDecodeError`: caught by the
    -- loop's `except` clause, counted, backed off, loop continues
deriving Repr

/-- Externally visible effects of the ingestion loop. -/
inductive Effect where
  | relayed (j : Json)
  | stored (record : Json)
deriving Repr

/-- Rolling counters of `EddnListener.start`. -/
structure ListenerState where
  messageCount : Nat
  errorCount : Nat
deriving DecidableEq, Repr

/-- One iteration of the `while self.running` loop of `EddnListener.start`:
the produced effects, and either the successor state or the exception that
escapes the loop.  The `except` clause catches only
`(zmq.ZMQError, json.JSONDecodeError, zlib.error)`; an exception raised by
`store_message` (e.g. the `ValueError` for an event with no timestamp, which
is *not* a `json.JSONDecodeError`) is not caught and escapes — note that the
event has already been forwarded to the relay at that point. -/
def listenerStep (useMongo : Bool) (st : ListenerState) (f : FrameResult) :
    List Effect × Except PyErr ListenerState :=
  match f with
  | .emptyFrame => ([], .ok st)
  | .protoErr => ([], .ok { st with errorCount := st.errorCount + 1 })
  | .frame j =>
    if useMongo then
      match storeMessage j with
      | .error e => ([.relayed j], .error e)
      | .ok record =>
        ([.relayed j, .stored record], .ok { st with messageCount := st.messageCount + 1 })
    else ([.relayed j], .ok { st with messageCount := st.messageCount + 1 })

/-- Run the ingestion loop over a list of incoming frames: all effects
produced, and the exception that terminated the loop, if any. -/
def runListener (useMongo : Bool) (st : ListenerState) :
    List FrameResult → List Effect × Option PyErr
  | [] => ([], none)
  | f :: rest =>
    match listenerStep useMongo st f with
    | (effs, .error e) => (effs, some e)
    | (effs, .ok st') =>
      let (effs2, res) := runListener useMongo st' rest
      (effs ++ effs2, res)

/-! ## Backend query semantics

Modelled from the spec: the retention backend (MongoDB) is external to the
repository; §4.1 of the specification gives the query fragments each
variant translates to, and the agreement property (§8, invariant 3) is
stated against the backend's standard document-matching semantics, which
the following definitions model: a `{path: cond}` fragment matches a
document when some value the dotted path resolves to (branching through
arrays) satisfies the comparison; `exists: true` is satisfied by any
resolved value including an explicit `null`; an equality fragment also
matches an array containing the value; `regex` is an unanchored substring
search on string values; range fragments compare numbers with numbers and
datetimes with datetimes. -/

/-- Substring search of a pattern in a string (backend `regex` semantics). -/
def reSearch (r : Regex) (s : String) : Bool :=
  go s.toList
where
  go : List Char → Bool
    | [] => nullable r
    | c :: cs => (listInits (c :: cs)).any (accepts r) || go cs

/-- Modelled from the spec: whether one resolved value satisfies a backend
comparison fragment. -/
def mcmpMatches (c : MCmp) (v : Json) : Bool :=
  match c with
  | .mexists => true
  | .meq w =>
    (pyEq v w ||
      match v with
      | .arr l => l.any (fun x => pyEq x w)
      | _ => false)
  | .mregex pat =>
    (match reCompile pat with
     | .ok r =>
       (match v with
        | .str s => reSearch r s
        | _ => false)
     | .error _ => false)
  | .mrange lo hi =>
    let cmpLo : MBound → Bool := fun b =>
      match b, v with
      | .num q, _ =>
        (match numVal v with
         | some x => decide (q ≤ x)
         | none => false)
      | .date t, .date w' o' => decide (t.1 - t.2.getD 0 ≤ w' - o'.getD 0)
      | .date _, _ => false
    let cmpHi : MBound → Bool := fun b =>
      match b, v with
      | .num q, _ =>
        (match numVal v with
         | some x => decide (x ≤ q)
         | none => false)
      | .date t, .date w' o' => decide (w' - o'.getD 0 ≤ t.1 - t.2.getD 0)
      | .date _, _ => false
    (match lo with
     | some b => cmpLo b
     | none => true)
    && (match hi with
        | some b => cmpHi b
        | none => true)

mutual

/-- Modelled from the spec: whether a backend query matches a stored
document, per standard MongoDB document-matching semantics on the fragments
of §4.1. -/
def mongoMatches : MQuery → Json → Bool
  | .mempty, _ => true
  | .mfield path c, d => (resolve d (splitDot path)).any (mcmpMatches c)
  | .mand qs, d => mongoAllMatch qs d
  | .mor qs, d => mongoAnyMatch qs d
  | .mnor qs, d => !(mongoAnyMatch qs d)

def mongoAllMatch : List MQuery → Json → Bool
  | [], _ => true
  | q :: rest, d => mongoMatches q d && mongoAllMatch rest d

def mongoAnyMatch : List MQuery → Json → Bool
  | [], _ => false
  | q :: rest, d => mongoMatches q d || mongoAnyMatch rest d

end

/-! ## Concrete fixtures used by the theorems below

Documents and messages drawn from the specification's literal scenarios
(S3, S5, S6) and from the counterexamples developed here. -/

/-- Whether a value is not `None` (the terminal test of `Exists`). -/
def notNull : Json → Bool
  | .null => false
  | _ => true

/-- S5 predicate description `{"type":"exists","path":"message.event"}`. -/
def s5desc : Json := .obj [("type", .str "exists"), ("path", .str "message.event")]

/-- S5 filter-update message. -/
def s5msg : Json := .obj [("type", .str "filter"), ("filter", s5desc)]

/-- An `exact` predicate description, a tag `Relay._parse_condition` supports. -/
def exactDesc : Json :=
  .obj [("type", .str "exact"), ("path", .str "message.event"), ("value", .str "Docked")]

/-- A filter-update message carrying `exactDesc`. -/
def exactMsg : Json := .obj [("type", .str "filter"), ("filter", exactDesc)]

/-- S6 predicate description with the invalid regex pattern `"["`. -/
def regexBadDesc : Json :=
  .obj [("type", .str "regex"), ("path", .str "x"), ("pattern", .str "[")]

/-- S6 filter-update message. -/
def regexBadMsg : Json := .obj [("type", .str "filter"), ("filter", regexBadDesc)]

/-- A `daterange` description with a *naive* ISO minimum bound. -/
def drDesc : Json :=
  .obj [("type", .str "daterange"), ("path", .str "a"), ("min_value", .str "2024-01-01T00:00:00")]

/-- The condition `drDesc` constructs (2024-01-01 is day 19723 of the epoch). -/
def drCond : Condition := .daterange ["a"] (some (19723 * 86400000000, none)) none

/-- A document whose `a` field is an *aware* ISO timestamp. -/
def awareDoc : Json := .obj [("a", .str "2024-01-01T00:00:00+00:00")]

/-- A `range` description whose minimum is the JSON integer `5`. -/
def rangeDescInt : Json :=
  .obj [("type", .str "range"), ("path", .str "a.b"), ("min_value", .int 5)]

/-- The same `range` description with the JSON float `5.0`. -/
def rangeDescFloat : Json :=
  .obj [("type", .str "range"), ("path", .str "a.b"), ("min_value", .float 5)]

/-- The S3 event `{"message":{"Bodies":[{"Name":"A"},{"Name":"B"}]}}`. -/
def s3doc : Json :=
  .obj [("message", .obj [("Bodies", .arr [.obj [("Name", .str "A")], .obj [("Name", .str "B")]])])]

/-- Top-level fields of an event whose payload timestamp is present but
*empty*, with a valid gateway timestamp. -/
def c8fields : List (String × Json) :=
  [("message", .obj [("timestamp", .str "")]),
   ("header", .obj [("gatewayTimestamp", .str "2025-01-01T00:00:00+00:00")])]

/-- The event `.obj c8fields`. -/
def c8msg : Json := .obj c8fields

/-- An event carrying neither a payload timestamp nor a gateway timestamp. -/
def badEvent : Json := .obj [("foo", .int 1)]

/-- Top-level fields of an event with only a valid gateway timestamp
(2025-01-01 is day 20089 of the epoch). -/
def goodFields : List (String × Json) :=
  [("header", .obj [("gatewayTimestamp", .str "2025-01-01T00:00:00+00:00")])]

/-- The event `.obj goodFields`. -/
def goodEvent : Json := .obj goodFields

/-- The record `store_message` inserts for `goodEvent`. -/
def goodRecord : Json :=
  .obj (objSet goodFields "timestamp" (.date (20089 * 86400000000) (some 0)))

/-- Top-level fields of an event with only a (naive) payload timestamp. -/
def pdFields : List (String × Json) :=
  [("message", .obj [("timestamp", .str "2024-01-01T00:00:00")])]

/-- A filter whose root is `Exists` at path `a`. -/
def existsFilter : Filter := ⟨.existsC ["a"]⟩

/-- The document `{"a": null}`. -/
def nullDoc : Json := .obj [("a", .null)]

/-! ## Theorems: correctness of the derivative-based matcher -/

theorem nullable_of_rmatch_nil {r : Regex} {l : List Char}
    (h : RMatch r l) (hl : l = []) : nullable r = true := by
  induction h with
  | epsilon => rfl
  | char c => simp at hl
  | dot _ => simp at hl
  | cls _ => simp at hl
  | cat _ _ iha ihb =>
    rcases List.append_eq_nil.mp hl with ⟨h₁, h₂⟩
    simp [nullable, iha h₁, ihb h₂]
  | altL _ ih => simp [nullable, ih hl]
  | altR _ ih => simp [nullable, ih hl]
  | starNil _ => rfl
  | starCat _ _ _ _ => rfl

theorem nullable_iff (r : Regex) : nullable r = true ↔ RMatch r [] := by
  constructor
  · intro h
    induction r with
    | fail => simp [nullable] at h
    | epsilon => exact .epsilon
    | char c => simp [nullable] at h
    | dot => simp [nullable] at h
    | cls n its => simp [nullable] at h
    | cat a b iha ihb =>
      simp only [nullable, Bool.and_eq_true] at h
      exact RMatch.cat (iha h.1) (ihb h.2) (s := []) (t := [])
    | alt a b iha ihb =>
      simp only [nullable, Bool.or_eq_true] at h
      rcases h with h | h
      · exact .altL (iha h)
      · exact .altR (ihb h)
    | star a _ => exact .starNil a
  · intro h
    exact nullable_of_rmatch_nil h rfl

theorem rmatch_star_cons {a : Regex} {c : Char} {s : List Char}
    (h : RMatch (.star a) (c :: s)) :
    ∃ s₁ s₂, s = s₁ ++ s₂ ∧ RMatch a (c :: s₁) ∧ RMatch (.star a) s₂ := by
  generalize hr : Regex.star a = r at h
  generalize hl : c :: s = l at h
  induction h generalizing c s with
  | starNil _ => exact absurd hl (by simp)
  | @starCat a' s' t' h₁ h₂ _ ih₂ =>
    injection hr with hr'
    subst hr'
    rcases s' with _ | ⟨c', s''⟩
    · exact ih₂ rfl (by simpa using hl)
    · rw [List.cons_append] at hl
      injection hl with hc hrest
      subst hc
      exact ⟨s'', t', hrest, h₁, h₂⟩
  | epsilon => cases hr
  | char _ => cases hr
  | dot _ => cases hr
  | cls _ => cases hr
  | cat _ _ _ _ => cases hr
  | altL _ _ => cases hr
  | altR _ _ => cases hr

theorem rmatch_cat_inv {a b : Regex} {l : List Char} (h : RMatch (.cat a b) l) :
    ∃ s t, l = s ++ t ∧ RMatch a s ∧ RMatch b t := by
  generalize hr : Regex.cat a b = r at h
  cases h with
  | cat h₁ h₂ =>
    injection hr with e₁ e₂
    subst e₁; subst e₂
    exact ⟨_, _, rfl, h₁, h₂⟩
  | epsilon => cases hr
  | char _ => cases hr
  | dot _ => cases hr
  | cls _ => cases hr
  | altL _ => cases hr
  | altR _ => cases hr
  | starNil _ => cases hr
  | starCat _ _ => cases hr

theorem rmatch_alt_inv {a b : Regex} {l : List Char} (h : RMatch (.alt a b) l) :
    RMatch a l ∨ RMatch b l := by
  generalize hr : Regex.alt a b = r at h
  cases h with
  | altL h₁ =>
    injection hr with e₁ e₂
    subst e₁; subst e₂
    exact Or.inl h₁
  | altR h₂ =>
    injection hr with e₁ e₂
    subst e₁; subst e₂
    exact Or.inr h₂
  | epsilon => cases hr
  | char _ => cases hr
  | dot _ => cases hr
  | cls _ => cases hr
  | cat _ _ => cases hr
  | starNil _ => cases hr
  | starCat _ _ => cases hr

theorem rmatch_epsilon_inv {l : List Char} (h : RMatch .epsilon l) : l = [] := by
  cases h
  rfl

theorem rmatch_char_inv {a : Char} {l : List Char} (h : RMatch (.char a) l) :
    l = [a] := by
  cases h
  rfl

theorem rmatch_dot_inv {l : List Char} (h : RMatch .dot l) :
    ∃ c, l = [c] ∧ c ≠ '\n' := by
  cases h with
  | dot hc => exact ⟨_, rfl, hc⟩

theorem rmatch_cls_inv {neg : Bool} {items : List ClassItem} {l : List Char}
    (h : RMatch (.cls neg items) l) :
    ∃ c, l = [c] ∧ classMatch neg items c = true := by
  cases h with
  | cls hc => exact ⟨_, rfl, hc⟩

/-- Correctness of the Brzozowski derivative against the matching relation. -/
theorem rmatch_derivC (r : Regex) (c : Char) (s : List Char) :
    RMatch (derivC r c) s ↔ RMatch r (c :: s) := by
  induction r generalizing s with
  | fail =>
    simp only [derivC]
    exact ⟨(fun h => by cases h), (fun h => by cases h)⟩
  | epsilon =>
    simp only [derivC]
    exact ⟨(fun h => by cases h), (fun h => by cases (rmatch_epsilon_inv h))⟩
  | char a =>
    simp only [derivC]
    by_cases hac : a = c
    · subst hac
      simp only [beq_self_eq_true, if_true]
      constructor
      · intro h
        rw [rmatch_epsilon_inv h]
        exact .char a
      · intro h
        have := rmatch_char_inv h
        injection this with _ h₂
        rw [h₂]
        exact .epsilon
    · rw [if_neg (by simpa using hac)]
      constructor
      · intro h; cases h
      · intro h
        have := rmatch_char_inv h
        injection this with h₁ _
        exact absurd h₁.symm hac
  | dot =>
    simp only [derivC]
    by_cases hc : c = '\n'
    · rw [if_pos (by simpa using hc)]
      constructor
      · intro h; cases h
      · intro h
        obtain ⟨c', hl, hne⟩ := rmatch_dot_inv h
        injection hl with h₁ _
        exact absurd (h₁ ▸ hc) hne
    · rw [if_neg (by simpa using hc)]
      constructor
      · intro h
        rw [rmatch_epsilon_inv h]
        exact .dot hc
      · intro h
        obtain ⟨c', hl, _⟩ := rmatch_dot_inv h
        injection hl with _ h₂
        rw [h₂]
        exact .epsilon
  | cls n its =>
    simp only [derivC]
    by_cases hc : classMatch n its c = true
    · rw [if_pos hc]
      constructor
      · intro h
        rw [rmatch_epsilon_inv h]
        exact .cls hc
      · intro h
        obtain ⟨c', hl, _⟩ := rmatch_cls_inv h
        injection hl with _ h₂
        rw [h₂]
        exact .epsilon
    · rw [if_neg hc]
      constructor
      · intro h; cases h
      · intro h
        obtain ⟨c', hl, hm⟩ := rmatch_cls_inv h
        injection hl with h₁ _
        exact absurd (h₁ ▸ hm) hc
  | cat a b iha ihb =>
    simp only [derivC]
    by_cases hn : nullable a = true
    · rw [if_pos hn]
      constructor
      · intro h
        rcases rmatch_alt_inv h with h' | h'
        · obtain ⟨s₁, s₂, hl, h₁, h₂⟩ := rmatch_cat_inv h'
          rw [hl, ← List.cons_append]
          exact .cat ((iha s₁).mp h₁) h₂
        · have hb := (ihb s).mp h'
          have ha := (nullable_iff a).mp hn
          simpa using RMatch.cat ha hb
      · intro h
        obtain ⟨s₁, s₂, hl, h₁, h₂⟩ := rmatch_cat_inv h
        rcases s₁ with _ | ⟨c₁, s₁'⟩
        · simp only [List.nil_append] at hl
          exact .altR ((ihb s).mpr (hl ▸ h₂))
        · rw [List.cons_append] at hl
          injection hl with hc₁ hrest
          subst hc₁
          refine .altL ?_
          rw [hrest]
          exact .cat ((iha s₁').mpr h₁) h₂
    · rw [if_neg hn]
      constructor
      · intro h
        obtain ⟨s₁, s₂, hl, h₁, h₂⟩ := rmatch_cat_inv h
        rw [hl, ← List.cons_append]
        exact .cat ((iha s₁).mp h₁) h₂
      · intro h
        obtain ⟨s₁, s₂, hl, h₁, h₂⟩ := rmatch_cat_inv h
        rcases s₁ with _ | ⟨c₁, s₁'⟩
        · exact absurd ((nullable_iff a).mpr h₁) hn
        · rw [List.cons_append] at hl
          injection hl with hc₁ hrest
          subst hc₁
          rw [hrest]
          exact .cat ((iha s₁').mpr h₁) h₂
  | alt a b iha ihb =>
    simp only [derivC]
    constructor
    · intro h
      rcases rmatch_alt_inv h with h' | h'
      · exact .altL ((iha s).mp h')
      · exact .altR ((ihb s).mp h')
    · intro h
      rcases rmatch_alt_inv h with h' | h'
      · exact .altL ((iha s).mpr h')
      · exact .altR ((ihb s).mpr h')
  | star a iha =>
    simp only [derivC]
    constructor
    · intro h
      obtain ⟨s₁, s₂, hl, h₁, h₂⟩ := rmatch_cat_inv h
      rw [hl, ← List.cons_append]
      exact .starCat ((iha s₁).mp h₁) h₂
    · intro h
      obtain ⟨s₁, s₂, hl, h₁, h₂⟩ := rmatch_star_cons h
      rw [hl]
      exact .cat ((iha s₁).mpr h₁) h₂

/-- Correctness of the derivative-based matcher: `accepts` decides `RMatch`. -/
theorem accepts_iff (r : Regex) (s : List Char) :
    accepts r s = true ↔ RMatch r s := by
  induction s generalizing r with
  | nil => simpa [accepts] using nullable_iff r
  | cons c cs ih =>
    simp only [accepts]
    rw [ih (derivC r c)]
    exact rmatch_derivC r c cs

theorem mem_listInits (l p : List Char) : p ∈ listInits l ↔ ∃ q, p ++ q = l := by
  induction l generalizing p with
  | nil =>
    simp only [listInits, List.mem_singleton]
    constructor
    · rintro rfl; exact ⟨[], rfl⟩
    · rintro ⟨q, hq⟩
      exact (List.append_eq_nil.mp hq).1
  | cons c cs ih =>
    simp only [listInits, List.mem_cons, List.mem_map]
    constructor
    · rintro (rfl | ⟨p', hp', rfl⟩)
      · exact ⟨c :: cs, rfl⟩
      · obtain ⟨q, hq⟩ := (ih p').mp hp'
        exact ⟨q, by rw [List.cons_append, hq]⟩
    · rintro ⟨q, hq⟩
      rcases p with _ | ⟨c₁, p'⟩
      · exact Or.inl rfl
      · rw [List.cons_append] at hq
        injection hq with h₁ h₂
        subst h₁
        exact Or.inr ⟨p', (ih p').mpr ⟨q, h₂⟩, rfl⟩

/-- `compiled.match(s)` is truthy iff some initial segment of `s` is in the
pattern's language: match at the start of input, not full-string anchored. -/
theorem reMatch_iff (r : Regex) (s : String) :
    reMatch r s = true ↔ ∃ p q, p ++ q = s.toList ∧ RMatch r p := by
  simp only [reMatch, List.any_eq_true]
  constructor
  · rintro ⟨p, hp, hacc⟩
    obtain ⟨q, hq⟩ := (mem_listInits s.toList p).mp hp
    exact ⟨p, q, hq, (accepts_iff r p).mp hacc⟩
  · rintro ⟨p, q, hq, hm⟩
    exact ⟨p, (mem_listInits s.toList p).mpr ⟨q, hq⟩, (accepts_iff r p).mpr hm⟩

/-! ## Theorems: the `check_value` traversal realises spec §4.1 resolution -/

mutual

/-- For a terminal test that cannot raise, the shared `check_value`
traversal returns exactly "some value the path resolves to (per spec §4.1)
satisfies the terminal test". -/
theorem checkValueWith_pure (t : Json → Bool) :
    ∀ (d : Json) (p : List String),
      checkValueWith (fun v => .ok (t v)) d p = .ok ((resolve d p).any t)
  | d, [] => by cases d <;> simp [checkValueWith, resolve]
  | .arr l, k :: ks => by
    simp only [checkValueWith, resolve]
    exact checkValueAnyElem_pure t l (k :: ks)
  | .obj m, k :: ks => by
    simp only [checkValueWith, resolve]
    exact checkValueKey_pure t m k ks
  | .null, _ :: _ => by simp [checkValueWith, resolve]
  | .bool _, _ :: _ => by simp [checkValueWith, resolve]
  | .int _, _ :: _ => by simp [checkValueWith, resolve]
  | .float _, _ :: _ => by simp [checkValueWith, resolve]
  | .str _, _ :: _ => by simp [checkValueWith, resolve]
  | .date _ _, _ :: _ => by simp [checkValueWith, resolve]

theorem checkValueAnyElem_pure (t : Json → Bool) :
    ∀ (l : List Json) (p : List String),
      checkValueAnyElem (fun v => .ok (t v)) l p = .ok ((resolveList l p).any t)
  | [], p => by simp [checkValueAnyElem, resolveList]
  | d :: ds, p => by
    simp only [checkValueAnyElem, resolveList]
    rw [checkValueWith_pure t d p]
    cases hb : (resolve d p).any t with
    | true => simp [hb, List.any_append]
    | false => simp [hb, List.any_append, checkValueAnyElem_pure t ds p]

theorem checkValueKey_pure (t : Json → Bool) :
    ∀ (m : List (String × Json)) (k : String) (ks : List String),
      checkValueKey (fun v => .ok (t v)) m k ks = .ok ((resolveObj m k ks).any t)
  | [], _, _ => by simp [checkValueKey, resolveObj]
  | (k', v) :: rest, k, ks => by
    simp only [checkValueKey, resolveObj]
    cases h : k' == k with
    | true => simp [h, checkValueWith_pure t v ks]
    | false => simp [h, checkValueKey_pure t rest k ks]

end

theorem existsTerm_eq : existsTerm = fun v => Except.ok (notNull v) := by
  funext v
  cases v <;> rfl

theorem matchesE_existsC (p : List String) (d : Json) :
    matchesE (.existsC p) d = .ok ((resolve d p).any notNull) := by
  show checkValueWith existsTerm d p = _
  rw [existsTerm_eq, checkValueWith_pure]

theorem matchesE_exact (p : List String) (value d : Json) :
    matchesE (.exact p value) d = .ok ((resolve d p).any (fun v => pyEq v value)) := by
  show checkValueWith (exactTerm value) d p = _
  rw [show exactTerm value = fun v => Except.ok (pyEq v value) from rfl, checkValueWith_pure]

theorem matchesE_regexC (p : List String) (pat : String) (r : Regex) (d : Json) :
    matchesE (.regexC p pat r) d = .ok ((resolve d p).any (fun v => reMatch r (pyStr v))) := by
  show checkValueWith (regexTerm r) d p = _
  rw [show regexTerm r = fun v => Except.ok (reMatch r (pyStr v)) from rfl, checkValueWith_pure]

theorem strmk_append (xs ys : List Char) :
    String.mk xs ++ String.mk ys = String.mk (xs ++ ys) := rfl

theorem splitDot_go_ne_nil (cs acc : List Char) : splitDot.go cs acc ≠ [] := by
  induction cs generalizing acc with
  | nil => simp [splitDot.go]
  | cons c cs ih =>
    simp only [splitDot.go]
    cases h : c == '.'
    · simp [h, ih]
    · simp [h]

theorem joinDot_splitDot_go (cs : List Char) :
    ∀ acc, joinDot (splitDot.go cs acc) = String.mk (acc.reverse ++ cs) := by
  induction cs with
  | nil => intro acc; simp [splitDot.go, joinDot]
  | cons c cs ih =>
    intro acc
    simp only [splitDot.go]
    cases h : c == '.' with
    | false =>
      rw [if_neg (by simp [h])]
      rw [ih (c :: acc)]
      simp
    | true =>
      rw [if_pos (by simp [h])]
      have hc : c = '.' := by simpa using h
      subst hc
      rcases hgo : splitDot.go cs [] with _ | ⟨s₀, rest⟩
      · exact absurd hgo (splitDot_go_ne_nil cs [])
      · rw [show joinDot (String.mk acc.reverse :: s₀ :: rest)
            = String.mk acc.reverse ++ "." ++ joinDot (s₀ :: rest) from rfl]
        rw [← hgo, ih []]
        simp only [List.reverse_nil, List.nil_append]
        rw [show ("." : String) = String.mk ['.'] from rfl, strmk_append, strmk_append]
        simp

/-- `'.'.join(s.split('.')) == s`: the dotted serialisation of a path built
by `split('.')` is the original string. -/
theorem joinDot_splitDot (s : String) : joinDot (splitDot s) = s := by
  rw [splitDot, joinDot_splitDot_go]
  cases s
  rfl

theorem jlookup_objSet_self (l : List (String × Json)) (k : String) (v : Json) :
    jlookup (objSet l k v) k = some v := by
  induction l with
  | nil => simp [objSet, jlookup]
  | cons hd tl ih =>
    obtain ⟨k', w⟩ := hd
    cases h : k' == k with
    | true => simp [objSet, jlookup, h]
    | false => simp [objSet, jlookup, h, ih]

theorem jlookup_objSet_other (l : List (String × Json)) (k k₂ : String) (v : Json)
    (h : k₂ ≠ k) : jlookup (objSet l k v) k₂ = jlookup l k₂ := by
  induction l with
  | nil =>
    have hne : (k == k₂) = false := by simpa using fun e => h e.symm
    simp [objSet, jlookup, hne]
  | cons hd tl ih =>
    obtain ⟨k', w⟩ := hd
    cases hk : k' == k with
    | true =>
      have he : k' = k := by simpa using hk
      subst he
      have hne : (k' == k₂) = false := by simpa using fun e => h e.symm
      simp [objSet, hk, jlookup, hne]
    | false =>
      simp only [objSet, hk, Bool.false_eq_true, if_false, jlookup]
      cases hk2 : k' == k₂ with
      | true => simp
      | false => simpa using ih

/-! ## Theorems: `store_message` -/

theorem storeMessage_ok (fields : List (String × Json)) (record : Json)
    (h : storeMessage (.obj fields) = .ok record) :
    ∃ w off, record = .obj (objSet fields "timestamp" (.date w off)) := by
  simp only [storeMessage] at h
  rcases hmv : (jlookup fields "message").getD (.obj []) with _ | _ | _ | _ | _ | _ | _ | m <;>
    rw [hmv] at h <;> try simp at h
  set tsOpt : Except PyErr (Option Json) :=
    (if truthyOpt (jlookup m "timestamp") = true then Except.ok (jlookup m "timestamp")
     else
       match (jlookup fields "header").getD (Json.obj []) with
       | Json.obj h => Except.ok (jlookup h "gatewayTimestamp")
       | _ => Except.error PyErr.attributeError) with htsdef
  rcases hts : tsOpt with e | tsv <;> rw [hts] at h <;> simp only [] at h
  · simp at h
  · cases htv : truthyOpt tsv with
    | false => simp [htv] at h
    | true =>
      simp only [htv, if_true] at h
      rcases tsv with _ | v
      · simp at h
      · rcases v with _ | _ | _ | _ | s | _ | _ | _ <;> try simp at h
        rcases hiso : fromisoformat s with _ | ⟨w, off⟩ <;> rw [hiso] at h <;> try simp at h
        cases off with
        | none => exact ⟨w, some 0, h.symm⟩
        | some o => exact ⟨w, some o, h.symm⟩

/-- A present, truthy, parseable payload timestamp determines the stored
record: the header is never consulted; a naive timestamp is normalised to
UTC (`off.getD 0`). -/
theorem storeMessage_payload (fields : List (String × Json)) (m : List (String × Json))
    (s : String) (w : Int) (off : Option Int)
    (hm : jlookup fields "message" = some (.obj m))
    (ht : jlookup m "timestamp" = some (.str s))
    (hne : s ≠ "")
    (hiso : fromisoformat s = some (w, off)) :
    storeMessage (.obj fields)
      = .ok (.obj (objSet fields "timestamp" (.date w (some (off.getD 0))))) := by
  have htr : truthyOpt (some (Json.str s)) = true := by simp [truthyOpt, pyTruthy, hne]
  simp only [storeMessage, hm, Option.getD, ht, htr, if_true, hiso]
  cases off <;> simp

/-- With the payload timestamp absent or falsy, a present, truthy,
parseable gateway timestamp determines the stored record. -/
theorem storeMessage_gateway (fields : List (String × Json)) (m hfs : List (String × Json))
    (s : String) (w : Int) (off : Option Int)
    (hm : jlookup fields "message" = some (.obj m))
    (ht : truthyOpt (jlookup m "timestamp") = false)
    (hh : jlookup fields "header" = some (.obj hfs))
    (hg : jlookup hfs "gatewayTimestamp" = some (.str s))
    (hne : s ≠ "")
    (hiso : fromisoformat s = some (w, off)) :
    storeMessage (.obj fields)
      = .ok (.obj (objSet fields "timestamp" (.date w (some (off.getD 0))))) := by
  have htr : truthyOpt (some (Json.str s)) = true := by simp [truthyOpt, pyTruthy, hne]
  simp only [storeMessage, hm, Option.getD, ht, Bool.false_eq_true, if_false, hh, hg, htr,
    if_true, hiso]
  cases off <;> simp

/-- An event carrying neither key is rejected with `ValueError`; nothing is
inserted. -/
theorem storeMessage_no_timestamp (fields : List (String × Json))
    (hm : jlookup fields "message" = none)
    (hh : jlookup fields "header" = none) :
    storeMessage (.obj fields) = .error .valueError := by
  simp [storeMessage, hm, hh, truthyOpt, jlookup]

/-! ## Theorems: backend query semantics of `Exists` -/

/-- The backend query `{path: {exists: true}}` matches exactly the documents
in which the path resolves to *some* value — an explicit `null` included. -/
theorem mongoMatches_existsC (pstr : String) (d : Json) :
    mongoMatches (toMongoQuery (.existsC (splitDot pstr))) d
      = !(resolve d (splitDot pstr)).isEmpty := by
  show (resolve d (splitDot (joinDot (splitDot pstr)))).any (mcmpMatches .mexists) = _
  rw [joinDot_splitDot]
  cases hres : resolve d (splitDot pstr) with
  | nil => simp
  | cons x xs => simp [mcmpMatches]

/-! ## The claims -/

/-- C1: the claim states that a filter-update message installs the described
predicate and subsequent events are filtered by it.  In the code this never
happens: `Relay._parse_condition` does not support the `exists` tag of the
specification's own scenario S5 (it raises `ValueError`, upon which the
handler *deletes* the subscriber), and for a supported tag such as `exact`
the handler calls `Filter.set_condition`, a method the `Filter` class does
not define, so an uncaught `AttributeError` propagates and the subscriber's
predicate is never replaced. -/
theorem c1_filter_update_eval :
    relayParseCondition s5desc = .error .valueError
  ∧ handleClientMessage [(0, Filter.default)] 0 s5msg = ([], .removed)
  ∧ handleClientMessage [(0, Filter.default)] 0 exactMsg
      = ([(0, Filter.default)], .crashed .attributeError) :=
  ⟨rfl, rfl, rfl⟩

/-- C2: the claim states that evaluation of a successfully constructed
predicate never raises.  The `daterange` description `drDesc` (naive ISO
minimum bound) constructs successfully, yet evaluating it on a document
whose value at the path is an *aware* ISO timestamp raises `TypeError`
(Python cannot order naive and aware datetimes, and the comparison sits
outside the `try` block of `DateRangeCondition.check_value`). -/
theorem c2_daterange_eval_raises :
    parseConditionFromJson drDesc = .ok drCond
  ∧ matchesE drCond awareDoc = .error .typeError :=
  ⟨rfl, rfl⟩

/-- C3 counterexample: an event with no timestamp makes `store_message`
raise `ValueError`, which the ingestion loop's `except` clause (only
`zmq.ZMQError`, `json.JSONDecodeError`, `zlib.error`) does not catch: the
loop terminates and the following event is never received or relayed,
contradicting the claim that ingestion continues. -/
theorem c3_store_failure_kills_loop :
    runListener true ⟨0, 0⟩ [.frame badEvent, .frame goodEvent]
      = ([.relayed badEvent], some .valueError) :=
  rfl

/-- C3 amended: protocol-level failures (socket, decompression, decode) and
empty frames are non-fatal, but a `store_event` failure propagates out of
the ingestion loop and terminates it; the failing event has already been
relayed, and no later frame is processed. -/
theorem c3_amended_fatality :
    (∀ st : ListenerState,
        listenerStep true st .protoErr = ([], .ok { st with errorCount := st.errorCount + 1 }))
  ∧ (∀ st : ListenerState, listenerStep true st .emptyFrame = ([], .ok st))
  ∧ (∀ (st : ListenerState) (j : Json) (e : PyErr), storeMessage j = .error e →
        listenerStep true st (.frame j) = ([.relayed j], .error e))
  ∧ (∀ (st : ListenerState) (frames : List FrameResult) (j : Json) (e : PyErr),
        storeMessage j = .error e →
        runListener true st (.frame j :: frames) = ([.relayed j], some e)) := by
  refine ⟨fun st => rfl, fun st => rfl, ?_, ?_⟩
  · intro st j e h
    simp [listenerStep, h]
  · intro st frames j e h
    simp [runListener, listenerStep, h]

theorem c3_amended_witness :
    storeMessage badEvent = .error .valueError
  ∧ runListener true ⟨0, 0⟩ [.frame badEvent, .frame goodEvent]
      = ([.relayed badEvent], some .valueError) :=
  ⟨rfl, c3_amended_fatality.2.2.2 ⟨0, 0⟩ [.frame goodEvent] badEvent .valueError rfl⟩

/-- C4: the `check_value` traversal of `Exists` and `Exact` realises exactly
the specification's §4.1 resolution with existential branching through
(arbitrarily nested) lists, and the S3 scenario matches: the `Exact`
predicate at `message.Bodies.Name` with value `"B"` matches
`{"message":{"Bodies":[{"Name":"A"},{"Name":"B"}]}}`. -/
theorem c4_list_existential_resolution :
    (∀ (p : List String) (d : Json),
        matchesE (.existsC p) d = .ok ((resolve d p).any notNull))
  ∧ (∀ (p : List String) (value d : Json),
        matchesE (.exact p value) d = .ok ((resolve d p).any (fun v => pyEq v value)))
  ∧ matchesE (.exact ["message", "Bodies", "Name"] (.str "B")) s3doc = .ok true :=
  ⟨matchesE_existsC, matchesE_exact, rfl⟩

/-- C5: a `Regex` predicate never raises: it evaluates to `false` when the
path does not resolve, and when it resolves it tests whether the compiled
pattern matches the string coercion of some resolved value at the start of
the string — a prefix match (`RMatch` holds of an initial segment), not
full-string anchored. -/
theorem c5_regex_semantics :
    (∀ (r : Regex) (pat : String) (p : List String) (d : Json),
        matchesE (.regexC p pat r) d = .ok ((resolve d p).any (fun v => reMatch r (pyStr v))))
  ∧ (∀ (r : Regex) (s : String),
        reMatch r s = true ↔ ∃ pre rest, pre ++ rest = s.toList ∧ RMatch r pre)
  ∧ (∀ (r : Regex) (pat : String) (p : List String) (d : Json),
        resolve d p = [] → matchesE (.regexC p pat r) d = .ok false) := by
  refine ⟨fun r pat p d => matchesE_regexC p pat r d, reMatch_iff, ?_⟩
  intro r pat p d h
  rw [matchesE_regexC, h]
  rfl

theorem c5_regex_witness :
    resolve (.obj []) ["zzz"] = []
  ∧ matchesE (.regexC ["zzz"] "x" (.char 'x')) (.obj []) = .ok false :=
  ⟨rfl, c5_regex_semantics.2.2 (.char 'x') "x" ["zzz"] (.obj []) rfl⟩

/-- C6: the claim states that a range description with numeric bounds
constructs successfully.  `RangeCondition.__init__` accepts only `float`,
`str` or `None` bounds, so the JSON *integer* `5` is rejected with
`ValueError` (although the constructor's own error message says "must be
numbers or None"), while the JSON float `5.0` is accepted; the constructed
predicate then behaves as specified (inclusive lower bound). -/
theorem c6_range_int_bound_rejected :
    parseConditionFromJson rangeDescInt = .error .valueError
  ∧ parseConditionFromJson rangeDescFloat = .ok (.range ["a", "b"] (some 5) none)
  ∧ matchesE (.range ["a", "b"] (some 5) none) (.obj [("a", .obj [("b", .int 7)])]) = .ok true
  ∧ matchesE (.range ["a", "b"] (some 5) none) (.obj [("a", .obj [("b", .int 3)])]) = .ok false :=
  ⟨rfl, rfl, rfl, rfl⟩

/-- C7 counterexample: on the S6 message (invalid regex pattern `"["`),
`re.error` is raised by `re.compile`; it is not among the caught classes
`(json.JSONDecodeError, KeyError, ValueError)`, so the handler crashes
*without* executing `del self.clients[websocket]`: the subscriber is still
in the registry afterwards, contradicting the claim that it is removed. -/
theorem c7_invalid_regex_not_removed :
    handleClientMessage [(0, Filter.default), (1, Filter.default)] 0 regexBadMsg
      = ([(0, Filter.default), (1, Filter.default)], .crashed .reError)
  ∧ (handleClientMessage [(0, Filter.default), (1, Filter.default)] 0 regexBadMsg).1.map Prod.fst
      = [0, 1] :=
  ⟨rfl, rfl⟩

/-- C7 amended: on an invalid-regex filter update the subscriber's channel
handler crashes (closing the channel), but the subscriber is *not* removed
from the registry; the registry — every subscriber and every predicate — is
unchanged, so fan-out behaves exactly as before (sends to the dead channel
are swallowed by `process_message`), e.g. both subscribers below are still
attempted. -/
theorem c7_amended_crash_preserves_registry :
    (∀ (clients : Registry) (cid : Nat),
        handleClientMessage clients cid regexBadMsg = (clients, .crashed .reError))
  ∧ (∀ (clients : Registry) (cid : Nat) (ev : Json),
        processMessage (handleClientMessage clients cid regexBadMsg).1 ev
          = processMessage clients ev)
  ∧ processMessage
      (handleClientMessage [(0, Filter.default), (1, existsFilter)] 0 regexBadMsg).1 awareDoc
      = .ok [0, 1] := by
  refine ⟨fun clients cid => rfl, ?_, rfl⟩
  intro clients cid ev
  rfl

/-- C8 counterexample: in `c8msg` the payload timestamp key *is present*
(with the empty string as value), yet `store_message` does not derive the
ingestion timestamp from it: the `if not timestamp` truthiness test treats
`""` as absent and the gateway timestamp (2025-01-01, day 20089) is used
and the insert succeeds — contradicting the claim that the payload
timestamp is used whenever present. -/
theorem c8_empty_payload_uses_gateway :
    jget c8msg "message" = some (.obj [("timestamp", .str "")])
  ∧ storeMessage c8msg
      = .ok (.obj [("message", .obj [("timestamp", .str "")]),
                   ("header", .obj [("gatewayTimestamp", .str "2025-01-01T00:00:00+00:00")]),
                   ("timestamp", .date (20089 * 86400000000) (some 0))]) :=
  ⟨rfl, rfl⟩

/-- C8 amended: the ingestion timestamp is derived from the payload
timestamp when that is present *and truthy (non-empty)*, otherwise from the
gateway timestamp when that is present and truthy; when neither is, the
event is rejected (`ValueError`, nothing inserted).  A timestamp is parsed
with `fromisoformat`, and a naive one is normalised to UTC
(`off.getD 0`) before the augmented record is produced. -/
theorem c8_amended_timestamp_selection :
    (∀ (fields m : List (String × Json)) (s : String) (w : Int) (off : Option Int),
        jlookup fields "message" = some (.obj m) →
        jlookup m "timestamp" = some (.str s) →
        s ≠ "" →
        fromisoformat s = some (w, off) →
        storeMessage (.obj fields)
          = .ok (.obj (objSet fields "timestamp" (.date w (some (off.getD 0))))))
  ∧ (∀ (fields m hfs : List (String × Json)) (s : String) (w : Int) (off : Option Int),
        jlookup fields "message" = some (.obj m) →
        truthyOpt (jlookup m "timestamp") = false →
        jlookup fields "header" = some (.obj hfs) →
        jlookup hfs "gatewayTimestamp" = some (.str s) →
        s ≠ "" →
        fromisoformat s = some (w, off) →
        storeMessage (.obj fields)
          = .ok (.obj (objSet fields "timestamp" (.date w (some (off.getD 0))))))
  ∧ (∀ fields : List (String × Json),
        jlookup fields "message" = none →
        jlookup fields "header" = none →
        storeMessage (.obj fields) = .error .valueError) :=
  ⟨storeMessage_payload, storeMessage_gateway, storeMessage_no_timestamp⟩

theorem c8_amended_witness :
    storeMessage (.obj pdFields)
      = .ok (.obj (objSet pdFields "timestamp" (.date (19723 * 86400000000) (some 0))))
  ∧ storeMessage (.obj c8fields)
      = .ok (.obj (objSet c8fields "timestamp" (.date (20089 * 86400000000) (some 0)))) :=
  ⟨c8_amended_timestamp_selection.1 pdFields _ "2024-01-01T00:00:00"
      (19723 * 86400000000) none rfl rfl (by decide) rfl,
   c8_amended_timestamp_selection.2.1 c8fields _ _ "2025-01-01T00:00:00+00:00"
      (20089 * 86400000000) (some 0) rfl rfl rfl rfl (by decide) rfl⟩

/-- C9 counterexample: for the `Exists` predicate at path `a` and the
storable document `{"a": null}`, the backend query
`{"a": {exists: true}}` matches (the field exists, `null` included) while
the in-memory evaluator returns `false` (it requires a non-null resolved
value) — so the claimed translation/evaluator agreement fails. -/
theorem c9_exists_null_disagreement :
    mongoMatches (filterToMongoQuery existsFilter) nullDoc = true
  ∧ Filter.matches existsFilter nullDoc = .ok false :=
  ⟨rfl, rfl⟩

/-- C9 amended: for an `Exists` predicate built from a dotted path string,
the backend query matches exactly the documents in which the path resolves
to some value (`null` included), whereas the in-memory evaluator matches
exactly those in which some resolved value is non-null; the two therefore
agree except on documents where the path resolves only to `null`. -/
theorem c9_amended_exists_characterization :
    (∀ (pstr : String) (d : Json),
        mongoMatches (toMongoQuery (.existsC (splitDot pstr))) d
          = !(resolve d (splitDot pstr)).isEmpty)
  ∧ (∀ (pstr : String) (d : Json),
        matchesE (.existsC (splitDot pstr)) d
          = .ok ((resolve d (splitDot pstr)).any notNull)) :=
  ⟨mongoMatches_existsC, fun pstr d => matchesE_existsC (splitDot pstr) d⟩

/-- C10: whenever `store_message` succeeds, the inserted record is the
passed event itself with the derived ingestion timestamp written into its
top-level `timestamp` key (overwriting any pre-existing value at that key),
and every other top-level field unchanged. -/
theorem c10_store_mutates_in_place :
    ∀ (fields : List (String × Json)) (record : Json),
      storeMessage (.obj fields) = .ok record →
      ∃ w off,
        record = .obj (objSet fields "timestamp" (.date w off))
        ∧ jget record "timestamp" = some (.date w off)
        ∧ ∀ k, k ≠ "timestamp" → jget record k = jlookup fields k := by
  intro fields record h
  obtain ⟨w, off, hrec⟩ := storeMessage_ok fields record h
  refine ⟨w, off, hrec, ?_, ?_⟩
  · rw [hrec]
    exact jlookup_objSet_self fields "timestamp" (.date w off)
  · intro k hk
    rw [hrec]
    exact jlookup_objSet_other fields "timestamp" k (.date w off) hk

theorem c10_witness :
    ∃ w off,
      goodRecord = .obj (objSet goodFields "timestamp" (.date w off))
      ∧ jget goodRecord "timestamp" = some (.date w off)
      ∧ ∀ k, k ≠ "timestamp" → jget goodRecord k = jlookup goodFields k :=
  c10_store_mutates_in_place goodFields goodRecord rfl

end EddnRelay
